import Mathlib

/-!
Shallow embedding of tig's runtime-configuration engine (src/options.c):
value coercers, the option registry, and the `set`, `color` and `bind`
command handlers, together with theorems checking the specification's
claims about them.  C doubles are modelled as exact rationals (every value
reaching a comparison here is an integer scaled by 1/100, where rational
and double arithmetic agree); machine ints as unbounded `Int` (the parsed
tokens stay far from overflow); the out-of-scope collaborators (key-map
registry, style-rule registry, key decoder, request table) as explicit
state or environment parameters, each modelled from the spec as marked.
-/

namespace Tig

/-- Status codes returned by the engine.  `error(fmt, ...)` in the source
formats a message and yields a non-success code; the distinguished codes
(file-does-not-exist, unmatched quotation, ...) are separate constructors. -/
inductive StatusCode where
  | success
  | errCustom (msg : String)
  | errFileDoesNotExist
  | errOutOfMemory
  | errUnmatchedQuotation
  | errNoOptionValue
deriving DecidableEq, Repr

/-- The source's `error(...)`: build the message, return a failure code. -/
def error (msg : String) : StatusCode := .errCustom msg

/-- Characters C's `isspace` accepts (the `atoi` skip set). -/
def cIsSpace (c : Char) : Bool :=
  c = ' ' ∨ c = '\t' ∨ c = '\n' ∨ c = '\x0b' ∨ c = '\x0c' ∨ c = '\r'

def cIsDigit (c : Char) : Bool := '0' ≤ c ∧ c ≤ '9'

/-- Accumulate the leading run of decimal digits, as `atoi` does. -/
def atoiDigits : List Char → Nat → Nat
  | [], acc => acc
  | c :: cs, acc =>
    if cIsDigit c then atoiDigits cs (acc * 10 + (c.toNat - 48)) else acc

/-- C's `atoi`: skip whitespace, optional sign, then the digit run. -/
def atoi (s : String) : Int :=
  match s.toList.dropWhile cIsSpace with
  | '-' :: rest => - (atoiDigits rest 0 : Int)
  | '+' :: rest => (atoiDigits rest 0 : Int)
  | cs => (atoiDigits cs 0 : Int)

/-- `parse_step` (src/options.c): a count, or with a `%` marker a
percentage shifted down so 100% and a count of 1 do not collide. -/
def parse_step (arg : String) : Rat × StatusCode :=
  let v : Rat := ((atoi arg : Int) : Rat)
  if arg.toList.contains '%' = false then (v, .success)
  else
    let w : Rat := (v - 1) / 100
    if 1 ≤ w then (0.99, error "Percentage is larger than 100%")
    else if w < 0 then (1, error "Percentage is less than 0%")
    else (w, .success)

/-- `parse_int` (src/options.c): the stored value `cur` is replaced only
when the parsed token lies within the bounds. -/
def parse_int (cur : Int) (arg : String) (lo hi : Int) : Int × StatusCode :=
  let value := atoi arg
  if lo ≤ value ∧ value ≤ hi then (value, .success)
  else (cur, error ("Value must be between " ++ toString lo ++ " and " ++ toString hi))

/-- `parse_bool` (src/options.c): `strcmp` against the six tokens; any
other token stores false and reports a non-boolean diagnostic. -/
def parse_bool (arg : String) : Bool × StatusCode :=
  let b := arg == "1" || arg == "true" || arg == "yes"
  if (b || arg == "0" || arg == "false" || arg == "no") = true then (b, .success)
  else (b, error ("Non-boolean value treated as false: " ++ arg))

/-- ASCII lower-casing, as the C `tolower` applied to these tokens. -/
def asciiLower (c : Char) : Char :=
  if 'A' ≤ c ∧ c ≤ 'Z' then Char.ofNat (c.toNat + 32) else c

/-- Modelled from the spec: `string_enum_compare` is not under src/; the
spec fixes enum-map and alias-table name comparison as case-insensitive
over tokens of equal length. -/
def enum_names_equal (a b : String) : Bool :=
  a.toList.map asciiLower = b.toList.map asciiLower

/-- Modelled from the spec: `map_enum_do` is not under src/; the spec fixes
the lookup as case-insensitive with an exact length match. -/
def map_enum_do {α : Type} (entries : List (String × α)) (arg : String) : Option α :=
  (entries.find? fun e => e.1.length == arg.length && enum_names_equal arg e.1).map (·.2)

/-- `find_remapped` (src/options.c): scan an obsolete-name table for an
equal-length, case-insensitive match; the matching row is returned. -/
def find_remapped (table : List (String × String)) (arg : String) :
    Option (String × String) :=
  table.find? fun p => p.1.length == arg.length && enum_names_equal arg p.1

/-- `parse_enum` (src/options.c): enum-map lookup, falling back to boolean
coercion selecting entry 1 (true) or entry 0 (false or any other word).
The source asserts the map has more than one entry. -/
def parse_enum (entries : List (String × Int)) (arg : String) : Int × StatusCode :=
  match map_enum_do entries arg with
  | some v => (v, .success)
  | none =>
    let is_true := (parse_bool arg).1
    ((entries.getD (if is_true then 1 else 0) ("", 0)).2, .success)

/-- Status part of `parse_string` (src/options.c): a token opening with a
quote must close with the same quote and have length at least 2; the copy
into the fixed destination is abstracted away (it cannot fail). -/
def parse_string_code (arg : String) : StatusCode :=
  match arg.toList with
  | c :: rest =>
    if c = '"' ∨ c = '\x27' then
      if rest = [] ∨ rest.getLast? ≠ some c then .errUnmatchedQuotation else .success
    else .success
  | [] => .success

/-- Character-list test for "pfx is a leading run of s". -/
def listIsPfx : List Char → List Char → Bool
  | [], _ => true
  | _ :: _, [] => false
  | a :: as, b :: bs => a == b && listIsPfx as bs

/-- Character-list test for "sub occurs somewhere in the list". -/
def listHasSub (sub : List Char) : List Char → Bool
  | [] => listIsPfx sub []
  | b :: bs => listIsPfx sub (b :: bs) || listHasSub sub bs

/-- C's `prefixcmp(s, pfx) == 0`. -/
def strHasPfx (pfx s : String) : Bool := listIsPfx pfx.toList s.toList

/-- C's `strstr(hay, sub) != NULL`. -/
def strstrContains (hay sub : String) : Bool :=
  listHasSub sub.toList hay.toList

/-- Drop the first n characters (C pointer arithmetic `s + n`). -/
def strDropn (s : String) (n : Nat) : String := (s.toList.drop n).asString

/-- A typed option value (the storage slot of an option-registry entry). -/
inductive OptValue where
  | vBool (b : Bool)
  | vInt (n : Int)
  | vStep (q : Rat)
  | vEnum (n : Int)
  | vArgs (args : List String)
deriving DecidableEq, Repr

/-- An entry of `option_info`: name (dashed form), type tag string,
storage, and the seen flag gating later assignments. -/
structure OptionInfo where
  name : String
  type : String
  value : OptValue
  seen : Bool
deriving DecidableEq, Repr

/-- A style-rule selector: a symbolic area name or a quoted literal text. -/
inductive RuleKey where
  | named (s : String)
  | lit (s : String)
deriving DecidableEq, Repr

/-- A resolved style rule's colors and attribute mask (`struct line_info`). -/
structure LineInfo where
  fg : Int
  bg : Int
  attr : Nat
deriving DecidableEq, Repr

/-- The mutable settings state this engine drives: the option registry,
the style-rule store keyed by (optional scope, selector), the key-binding
table and the run-command table. -/
structure State where
  options : List OptionInfo
  rules : List ((Option String × RuleKey) × LineInfo)
  bindings : List (String × Int × List Nat)
  runRequests : List (String × List Nat × List String)
deriving DecidableEq, Repr

/-- Out-of-scope collaborators, modelled from the spec as an environment:
the key-scope registry, the style-rule registry's known symbolic names,
the key-chord decoder (one decoded key plus the rest of the spec string),
the request-name table (`REQ_UNKNOWN` for a miss), the enum-map registry,
the per-view argument validator and the reference-format parser. -/
structure Env where
  keymaps : List String
  lineRuleNames : List String
  get_key_value : String → Option (Nat × String)
  get_request : String → Int
  find_enum_map : String → List (String × Int)
  parse_view_config : String → List String → StatusCode
  parse_ref_formats : List String → StatusCode

/-- Modelled from the spec: `get_keymap`, a registry lookup of a key scope
by name returning an opaque handle (here the scope's name). -/
def Env.km (env : Env) (name : String) : Option String :=
  env.keymaps.find? (· == name)

/-- The sentinel `get_request` returns for an unknown action name. -/
def REQ_UNKNOWN : Int := 0

def is_quoted (c : Char) : Bool := c = '"' ∨ c = '\x27'

/-- The selector part of `parse_color_name`: a leading quote makes a
literal rule over the text between the first character and the assumed
closing quote; anything else is a symbolic name. -/
def mkRuleKey (color : String) : RuleKey :=
  match color.toList with
  | c :: _ =>
    if is_quoted c then .lit (((color.toList.drop 1).take (color.length - 2)).asString)
    else .named color
  | [] => .named ""

/-- `parse_color_name` (src/options.c): an unquoted selector containing a
dot names a key scope before the dot, which must resolve; the returned
option is the scope name found (the caller decides whether to keep it). -/
def parse_color_name (env : Env) (color : String) :
    Except StatusCode (Option String × RuleKey) :=
  let cs := color.toList
  let quoted := match cs with
    | c :: _ => is_quoted c
    | [] => false
  let dotIdx := if quoted then none else cs.findIdx? (· == '.')
  match dotIdx with
  | some i =>
    let pfxName := (cs.take i).asString
    match env.km pfxName with
    | none => .error (error ("Unknown key map: " ++ pfxName))
    | some kmName => .ok (some kmName, mkRuleKey ((cs.drop (i + 1)).asString))
  | none => .ok (none, mkRuleKey color)

/-- Lookup in the style-rule store. -/
def lookupRule (st : State) (k : Option String × RuleKey) : Option LineInfo :=
  (st.rules.find? fun e => decide (e.1 = k)).map (·.2)

/-- Insert a rule slot when the key has none yet. -/
def insertRuleIfAbsent (st : State) (k : Option String × RuleKey) : State :=
  if st.rules.any (fun e => decide (e.1 = k)) then st
  else { st with rules := (k, ⟨0, 0, 0⟩) :: st.rules }

/-- Mutate the rule slot with key `k` (the C code writes through the
`line_info` pointer `add_line_rule` returned). -/
def setRule (st : State) (k : Option String × RuleKey) (f : LineInfo → LineInfo) : State :=
  { st with rules := st.rules.map (fun e => if e.1 = k then (e.1, f e.2) else e) }

/-- Modelled from the spec: `add_line_rule`, the style-rule registry's
insert/lookup keyed by (optional scope, selector).  A symbolic selector
must name a known rule, otherwise the lookup fails; a quoted literal
selector always resolves, creating the rule when absent.  A fresh rule's
initial contents are the registry's defaults, abstracted as zeroes. -/
def add_line_rule (env : Env) (st : State) (pfx : Option String) (k : RuleKey) :
    Option State :=
  match k with
  | .named n =>
    if env.lineRuleNames.any (fun m => m.length == n.length && enum_names_equal n m)
    then some (insertRuleIfAbsent st (pfx, k)) else none
  | .lit _ => some (insertRuleIfAbsent st (pfx, k))

/-- Modelled from the spec: the symbolic color names with the terminal
library's color codes (`COLOR_DEFAULT` is -1); the concrete codes are
outside src/ and never matter to the claims. -/
def color_map : List (String × Int) :=
  [("DEFAULT", -1), ("BLACK", 0), ("BLUE", 4), ("CYAN", 6), ("GREEN", 2),
   ("MAGENTA", 5), ("RED", 1), ("WHITE", 7), ("YELLOW", 3)]

/-- Modelled from the spec: the attribute names with the terminal
library's attribute bits (`A_NORMAL` is 0); the concrete bits are outside
src/ and never matter to the claims. -/
def attr_map : List (String × Nat) :=
  [("NORMAL", 0), ("BLINK", 2048), ("BOLD", 8192), ("DIM", 4096),
   ("REVERSE", 1024), ("STANDOUT", 256), ("UNDERLINE", 512)]

/-- `set_color` (src/options.c): a symbolic color name, a `colorN` code,
or a plain integer code 0..255 (as git writes colors). -/
def set_color (name : String) : Option Int :=
  match map_enum_do color_map name with
  | some v => some v
  | none =>
    let arg := if strHasPfx "color" name then strDropn name 5 else name
    let r := parse_int 0 arg 0 255
    if r.2 = .success then some r.1 else none

/-- The obsolete selector-name table of `option_color_command`. -/
def color_obsolete : List (String × String) :=
  [("acked", "\x27    Acked-by\x27"),
   ("diff-copy-from", "\x27copy from \x27"),
   ("diff-copy-to", "\x27copy to \x27"),
   ("diff-deleted-file-mode", "\x27deleted file mode \x27"),
   ("diff-dissimilarity", "\x27dissimilarity \x27"),
   ("diff-rename-from", "\x27rename from \x27"),
   ("diff-rename-to", "\x27rename to \x27"),
   ("diff-tree", "\x27diff-tree \x27"),
   ("filename", "file"),
   ("help-keymap", "help.section"),
   ("pp-adate", "\x27AuthorDate: \x27"),
   ("pp-author", "\x27Author: \x27"),
   ("pp-cdate", "\x27CommitDate: \x27"),
   ("pp-commit", "\x27Commit: \x27"),
   ("pp-date", "\x27Date: \x27"),
   ("reviewed", "\x27    Reviewed-by\x27"),
   ("signoff", "\x27    Signed-off-by\x27"),
   ("stat-head", "status.header"),
   ("stat-section", "status.section"),
   ("tested", "\x27    Tested-by\x27"),
   ("tree-dir", "tree.directory"),
   ("tree-file", "tree.file"),
   ("tree-head", "tree.header")]

/-- The rule-resolution phase of `option_color_command`: try the parsed
selector; on failure rewrite through the obsolete table, keeping an
already-found scope, and carry the deprecation message as the status the
command returns on success. -/
def color_resolve_rule (env : Env) (st : State) (pfx : Option String) (key : RuleKey)
    (a0 : String) :
    Except StatusCode (State × (Option String × RuleKey) × StatusCode) :=
  match add_line_rule env st pfx key with
  | some st1 => .ok (st1, (pfx, key), .success)
  | none =>
    let remap := match key with
      | .named n => find_remapped color_obsolete n
      | .lit _ => none
    match remap with
    | none => .error (error ("Unknown color name: " ++ a0))
    | some (oldN, newN) =>
      match parse_color_name env newN with
      | .error c => .error c
      | .ok (pfx2, key2) =>
        let pfx3 := if pfx.isSome then pfx else pfx2
        match add_line_rule env st pfx3 key2 with
        | none => .error (error ("Unknown color name: " ++ a0))
        | some st1 => .ok (st1, (pfx3, key2), error (oldN ++ " has been replaced by " ++ newN))

/-- The trailing-attribute loop of `option_color_command`, processing the
tokens from the last to the fourth and ORing each attribute into the
rule's mask; `code` is the status the loop returns when every token
resolves. -/
def color_attr_loop (k : Option String × RuleKey) (code : StatusCode) (st : State) :
    List String → State × StatusCode
  | [] => (st, code)
  | a :: rest =>
    match map_enum_do attr_map a with
    | none => (st, error ("Unknown color attribute: " ++ a))
    | some v =>
      color_attr_loop k code (setRule st k (fun i => { i with attr := i.attr ||| v })) rest

/-- `option_color_command` (src/options.c): wants selector, fgcolor,
bgcolor and optional attribute names. -/
def option_color_command (env : Env) (st : State) (argv : List String) :
    State × StatusCode :=
  if argv.length < 3 then
    (st, error "Invalid color mapping: color area fgcolor bgcolor [attrs]")
  else
    let a0 := argv.getD 0 ""
    match parse_color_name env a0 with
    | .error c => (st, c)
    | .ok (pfx, key) =>
      match color_resolve_rule env st pfx key a0 with
      | .error c => (st, c)
      | .ok (st1, k, code) =>
        match set_color (argv.getD 1 "") with
        | none => (st1, error ("Unknown color: " ++ argv.getD 1 ""))
        | some fg =>
          let st2 := setRule st1 k (fun i => { i with fg := fg })
          match set_color (argv.getD 2 "") with
          | none => (st2, error ("Unknown color: " ++ argv.getD 2 ""))
          | some bg =>
            let st3 := setRule st2 k (fun i => { i with bg := bg })
            let st4 := setRule st3 k (fun i => { i with attr := 0 })
            color_attr_loop k code st4 ((argv.drop 3).reverse)

/-- Modelled from the spec: `enum_name_prefixed` builds the option's
dashed name under a scope; with the empty scope (the only case the
claims exercise) it is the option's own name. -/
def enum_name_pfx (pfx name : String) : String :=
  if pfx = "" then name else pfx ++ "-" ++ name


/-- `SIZEOF_REV`: the fixed identifier (revision) length limit, 40
hexadecimal characters plus the terminator. -/
def SIZEOF_REV : Int := 41

/-- The per-name integer bounds of `parse_option`'s `int` branch. -/
def int_option_bounds (name : String) : Int × Int :=
  if name = "line-number-interval" ∨ name = "tab-size" then (1, 1024)
  else if name = "id-width" then (0, SIZEOF_REV - 1)
  else (0, 1024)

def optCurInt : OptValue → Int
  | .vInt n => n
  | _ => 0

/-- `parse_option` (src/options.c): dispatch on the option's type tag with
the two hard-coded special cases (show-notes, title-overflow).  The
show-notes branch also rewrites the global notes argument string, which
is outside the modelled state; its value result and status are kept. -/
def parse_option (env : Env) (o : OptionInfo) (pfx : String) (arg : String) :
    OptValue × StatusCode :=
  let name := enum_name_pfx pfx o.name
  if name = "show-notes" then
    let r := parse_bool arg
    if r.2 = .success then (.vBool r.1, .success)
    else (.vBool true, parse_string_code arg)
  else if o.type = "bool" then
    let r := parse_bool arg
    (.vBool r.1, r.2)
  else if o.type = "double" then
    let r := parse_step arg
    (.vStep r.1, r.2)
  else if strHasPfx "enum" o.type then
    let entries := env.find_enum_map (strDropn o.type 5)
    let r := parse_enum entries arg
    (.vEnum r.1, r.2)
  else if o.type = "int" then
    let lohi := int_option_bounds name
    let go : String → OptValue × StatusCode := fun a =>
      let r := parse_int (optCurInt o.value) a lohi.1 lohi.2
      (.vInt r.1, r.2)
    if strstrContains name "title-overflow" then
      let r := parse_bool arg
      if r.2 = .success then
        if r.1 = false then (.vInt 0, .success) else go "50"
      else go arg
    else go arg
  else (o.value, error ("Unhandled option: " ++ name))

/-- The view-configuration option names checked by `check_view_config`. -/
def view_config_names : List String :=
  ["blame-view", "blob-view", "diff-view", "grep-view", "log-view", "main-view",
   "pager-view", "refs-view", "stage-view", "stash-view", "status-view", "tree-view"]

/-- `check_view_config` (src/options.c): a view option's argument vector
is validated by the per-view checker; other options pass. -/
def check_view_config (env : Env) (o : OptionInfo) (args : List String) : StatusCode :=
  if view_config_names.contains o.name then env.parse_view_config o.name args
  else .success

/-- Modelled from the spec: `find_option_info` is a linear scan of the
registry by exact name (the comparison macro itself is outside src/). -/
def find_option_info (options : List OptionInfo) (name : String) : Option OptionInfo :=
  options.find? (fun o => o.name == name)

/-- Write an option's storage slot (the C code writes through the
`option_info` value pointer). -/
def setOptValue (st : State) (name : String) (v : OptValue) : State :=
  { st with options :=
      st.options.map (fun o => if o.name = name then { o with value := v } else o) }

/-- The obsolete option-name table of `option_set_command`. -/
def set_obsolete : List (String × String) :=
  [("author-width", "author"), ("filename-width", "file-name"),
   ("line-number-interval", "line-number"), ("show-author", "author"),
   ("show-date", "date"), ("show-file-size", "file-size"),
   ("show-filename", "file-name"), ("show-id", "id"),
   ("show-line-numbers", "line-number"), ("show-refs", "commit-title"),
   ("show-rev-graph", "commit-title"), ("title-overflow", "commit-title and text")]

/-- `option_set_command` (src/options.c): wants `name = value`. -/
def option_set_command (env : Env) (st : State) (argv : List String) :
    State × StatusCode :=
  if argv.length < 3 then (st, error "Invalid set command: set option = value")
  else if argv.getD 1 "" ≠ "=" then (st, error ("No value assigned to " ++ argv.getD 0 ""))
  else if argv.getD 0 "" = "reference-format" then (st, env.parse_ref_formats (argv.drop 2))
  else
    let name := argv.getD 0 ""
    match find_option_info st.options name with
    | some o =>
      if o.seen then (st, .success)
      else if o.type = "const char **" then
        let code := check_view_config env o (argv.drop 2)
        if code ≠ .success then (st, code)
        else (setOptValue st name (.vArgs (argv.drop 2)), .success)
      else
        let r := parse_option env o "" (argv.getD 2 "")
        let st1 := setOptValue st name r.1
        if r.2 = .success ∧ argv.length ≠ 3 then
          (st1, error ("Option " ++ name ++ " only takes one value"))
        else (st1, r.2)
    | none =>
      match find_remapped set_obsolete name with
      | some p =>
        (st, error (p.1 ++ " is obsolete; use the " ++ p.2 ++ " view column options instead"))
      | none => (st, error ("Unknown option name: " ++ name))

/-- Modelled from the spec: `add_keybinding` installs a binding of the
request under the scope (allocation failure is out of scope). -/
def add_keybinding (st : State) (km : String) (req : Int) (keys : List Nat) :
    State × StatusCode :=
  ({ st with bindings := (km, req, keys) :: st.bindings }, .success)

/-- Modelled from the spec: `add_run_request` installs an externally-run
command under the scope (allocation failure is out of scope). -/
def add_run_request (st : State) (km : String) (keys : List Nat) (args : List String) :
    State × StatusCode :=
  ({ st with runRequests := (km, keys, args) :: st.runRequests }, .success)

/-- The renamed-action table of `option_bind_command`. -/
def bind_obsolete : List (String × String) :=
  [("view-branch", "view-refs")]

/-- The toggle structural-rewrite table of `option_bind_command`. -/
def bind_toggles : List (String × String) :=
  [("diff-context-down", "diff-context"),
   ("diff-context-up", "diff-context"),
   ("toggle-author", "author-display"),
   ("toggle-changes", "show-changes"),
   ("toggle-commit-order", "show-commit-order"),
   ("toggle-date", "date-display"),
   ("toggle-file-filter", "file-filter"),
   ("toggle-file-size", "file-size-display"),
   ("toggle-filename", "filename-display"),
   ("toggle-graphic", "show-graphic"),
   ("toggle-id", "id-display"),
   ("toggle-ignore-space", "show-ignore-space"),
   ("toggle-lineno", "line-number-display"),
   ("toggle-refs", "commit-title-refs"),
   ("toggle-rev-graph", "commit-title-graph"),
   ("toggle-sort-field", "sort-field"),
   ("toggle-sort-order", "sort-order"),
   ("toggle-title-overflow", "commit-title-overflow"),
   ("toggle-untracked-dirs", "status-untracked-dirs"),
   ("toggle-vertical-split", "show-vertical-split")]

/-- The synthetic `:toggle` argument: only the diff-context toggles carry
a step, -1 for the `-down` action and +1 otherwise. -/
def toggle_arg (action : String) : Option String :=
  if strHasPfx "diff-context-" action then
    some (if strstrContains action "-down" then "-1" else "+1")
  else none

/-- `option_bind_command` (src/options.c): wants scope, key, action.  The
key-chord buffer of this version holds a single key (`struct key key[1]`). -/
def option_bind_command (env : Env) (st : State) (argv : List String) :
    State × StatusCode :=
  if argv.length < 3 then (st, error "Invalid key binding: bind keymap key action")
  else
    let a0 := argv.getD 0 ""
    let km1 := match env.km a0 with
      | some k => some k
      | none => if a0 = "branch" then env.km "refs" else none
    match km1 with
    | none => (st, error ("Unknown key map: " ++ a0))
    | some keymap =>
      let a1 := argv.getD 1 ""
      let dec : Except StatusCode (List Nat) :=
        if a1 = "" then .ok []
        else match env.get_key_value a1 with
          | none => .error (error ("Unknown key combo: " ++ a1))
          | some (k, rest) =>
            if rest ≠ "" then
              .error (error ("Max 1 keys are allowed in key combos: " ++ a1))
            else .ok [k]
      match dec with
      | .error c => (st, c)
      | .ok keys =>
        let a2 := argv.getD 2 ""
        let request := env.get_request a2
        if request = REQ_UNKNOWN then
          match find_remapped bind_obsolete a2 with
          | some (oldN, action) =>
            let r := add_keybinding st keymap (env.get_request action) keys
            (r.1, error (oldN ++ " has been renamed to " ++ action))
          | none =>
            match find_remapped bind_toggles a2 with
            | some (action, newN) =>
              let arg := toggle_arg action
              let toggle := [":toggle", newN] ++ arg.toList
              let r := add_run_request st keymap keys toggle
              if r.2 = .success then
                (r.1, error (action ++ " has been replaced by \x60:toggle " ++ newN ++
                             (match arg with | some a => " " ++ a | none => "") ++ "\x27"))
              else r
            | none => add_run_request st keymap keys (argv.drop 2)
        else add_keybinding st keymap request keys

/-- The bitwise OR of the attribute values a list of attribute tokens
names (an unknown token contributes nothing; the theorems using this
always require every token to resolve). -/
def orAttrs (l : List String) : Nat :=
  l.foldr (fun a acc => ((map_enum_do attr_map a).getD 0) ||| acc) 0

/-- A small concrete environment for evaluating the theorems at concrete
inputs: a few key scopes, a few known symbolic rule names, a one-character
key decoder and a three-entry request table. -/
def env0 : Env where
  keymaps := ["main", "diff", "log", "refs", "status", "stage"]
  lineRuleNames := ["default", "cursor", "status", "title-blur", "title-focus"]
  get_key_value := fun s =>
    match s.toList with
    | [] => none
    | c :: rest => some (c.toNat, rest.asString)
  get_request := fun s =>
    if s = "view-main" then 1 else if s = "view-refs" then 2
    else if s = "view-grep" then 3 else REQ_UNKNOWN
  find_enum_map := fun _ => [("no", 0), ("yes", 1)]
  parse_view_config := fun _ _ => .success
  parse_ref_formats := fun _ => .success

/-- The empty settings state. -/
def st0 : State := ⟨[], [], [], []⟩

/-! ## Helper lemmas -/

theorem parse_step_pct_over (arg : String) (hc : arg.toList.contains '%' = true)
    (h : 101 ≤ atoi arg) :
    parse_step arg = (0.99, error "Percentage is larger than 100%") := by
  have h100 : (0 : Rat) < 100 := by norm_num
  have hcast : (101 : Rat) ≤ ((atoi arg : Int) : Rat) := by exact_mod_cast h
  have hge : (1 : Rat) ≤ (((atoi arg : Int) : Rat) - 1) / 100 := by
    rw [le_div_iff₀ h100]; linarith
  unfold parse_step
  rw [hc]
  simp only [Bool.true_eq_false, if_false]
  rw [if_pos hge]

theorem parse_step_pct_neg (arg : String) (hc : arg.toList.contains '%' = true)
    (h : atoi arg < 0) :
    parse_step arg = (1, error "Percentage is less than 0%") := by
  have h100 : (0 : Rat) < 100 := by norm_num
  have hcast : ((atoi arg : Int) : Rat) < 0 := by exact_mod_cast h
  have hneg : (((atoi arg : Int) : Rat) - 1) / 100 < 0 :=
    div_neg_of_neg_of_pos (by linarith) h100
  have hnotge : ¬ (1 : Rat) ≤ (((atoi arg : Int) : Rat) - 1) / 100 := by linarith
  unfold parse_step
  rw [hc]
  simp only [Bool.true_eq_false, if_false]
  rw [if_neg hnotge, if_pos hneg]

theorem parse_step_pct_in_range (arg : String) (hc : arg.toList.contains '%' = true)
    (h1 : 1 ≤ atoi arg) (h2 : atoi arg ≤ 100) :
    parse_step arg = ((((atoi arg : Int) : Rat) - 1) / 100, .success) := by
  have h100 : (0 : Rat) < 100 := by norm_num
  have hc1 : (1 : Rat) ≤ ((atoi arg : Int) : Rat) := by exact_mod_cast h1
  have hc2 : ((atoi arg : Int) : Rat) ≤ 100 := by exact_mod_cast h2
  have hnotge : ¬ (1 : Rat) ≤ (((atoi arg : Int) : Rat) - 1) / 100 := by
    rw [not_le, div_lt_iff₀ h100]; linarith
  have hnotlt : ¬ (((atoi arg : Int) : Rat) - 1) / 100 < 0 := by
    rw [not_lt]
    exact div_nonneg (by linarith) (le_of_lt h100)
  unfold parse_step
  rw [hc]
  simp only [Bool.true_eq_false, if_false]
  rw [if_neg hnotge, if_neg hnotlt]

theorem parse_step_no_pct (arg : String) (hc : arg.toList.contains '%' = false) :
    parse_step arg = (((atoi arg : Int) : Rat), .success) := by
  unfold parse_step
  rw [hc]
  rfl

theorem atoi_100pct : atoi "100%" = 100 := rfl

theorem atoi_neg5pct : atoi "-5%" = -5 := rfl

theorem atoi_50pct : atoi "50%" = 50 := rfl

theorem atoi_150 : atoi "150" = 150 := rfl

theorem parse_step_100 : parse_step "100%" = (0.99, .success) := by
  have h := parse_step_pct_in_range "100%" rfl
    (by norm_num [atoi_100pct]) (by norm_num [atoi_100pct])
  rw [h, atoi_100pct]
  norm_num

theorem parse_step_neg5 : parse_step "-5%" = (1, error "Percentage is less than 0%") :=
  parse_step_pct_neg "-5%" rfl (by norm_num [atoi_neg5pct])

theorem parse_step_50 : parse_step "50%" = (49 / 100, .success) := by
  have h := parse_step_pct_in_range "50%" rfl
    (by norm_num [atoi_50pct]) (by norm_num [atoi_50pct])
  rw [h, atoi_50pct]
  norm_num

theorem parse_step_150 : parse_step "150" = (150, .success) := by
  rw [parse_step_no_pct "150" rfl, atoi_150]
  norm_num

/-! ## C1 -/

/-- C1 counterexample: the claim says `parse_step("100%")` fails with the
value clamped to 0.99; in the code 100% stores (100-1)/100 = 0.99, which
is below the failure threshold 1.0, so the call succeeds. -/
theorem parse_step_hundred_percent_succeeds :
    parse_step "100%" = (0.99, .success) ∧
    (parse_step "100%").2 ≠ error "Percentage is larger than 100%" := by
  refine ⟨parse_step_100, ?_⟩
  rw [parse_step_100]
  simp [error]

/-- C1 (amended): a percentage token is stored as (n-1)/100; a value
strictly greater than 100% fails clamped to 0.99, a negative value fails
clamped to 1; `parse_step("100%")` succeeds with value 0.99,
`parse_step("-5%")` fails with value 1, `parse_step("50%")` succeeds with
a fractional value in [0, 0.5), and `parse_step("150")` (no percent
marker) succeeds. -/
theorem parse_step_spec :
    (∀ arg : String, arg.toList.contains '%' = true → 101 ≤ atoi arg →
      parse_step arg = (0.99, error "Percentage is larger than 100%")) ∧
    (∀ arg : String, arg.toList.contains '%' = true → atoi arg < 0 →
      parse_step arg = (1, error "Percentage is less than 0%")) ∧
    (∀ arg : String, arg.toList.contains '%' = true → 1 ≤ atoi arg → atoi arg ≤ 100 →
      parse_step arg = ((((atoi arg : Int) : Rat) - 1) / 100, .success)) ∧
    (∀ arg : String, arg.toList.contains '%' = false →
      parse_step arg = (((atoi arg : Int) : Rat), .success)) ∧
    parse_step "100%" = (0.99, .success) ∧
    parse_step "-5%" = (1, error "Percentage is less than 0%") ∧
    (0 ≤ (parse_step "50%").1 ∧ (parse_step "50%").1 < 1 / 2 ∧
      (parse_step "50%").2 = .success) ∧
    parse_step "150" = (150, .success) :=
  ⟨parse_step_pct_over, parse_step_pct_neg, parse_step_pct_in_range, parse_step_no_pct,
   parse_step_100, parse_step_neg5,
   by rw [parse_step_50]; norm_num, parse_step_150⟩

/-! ## C3 -/

/-- C3 counterexample: the claim says boolean tokens are accepted
case-insensitively; `parse_bool` compares with `strcmp`, so "True" is not
accepted and yields the non-boolean diagnostic with value false. -/
theorem parse_bool_uppercase_diagnostic :
    parse_bool "True" = (false, error "Non-boolean value treated as false: True") ∧
    parse_bool "True" ≠ (true, .success) := by
  constructor
  · rfl
  · intro h
    exact absurd (congrArg Prod.fst h) (by decide)

theorem parse_bool_true_tok (arg : String)
    (h : arg = "1" ∨ arg = "true" ∨ arg = "yes") :
    parse_bool arg = (true, .success) := by
  rcases h with rfl | rfl | rfl <;> rfl

theorem parse_bool_false_tok (arg : String)
    (h : arg = "0" ∨ arg = "false" ∨ arg = "no") :
    parse_bool arg = (false, .success) := by
  rcases h with rfl | rfl | rfl <;> rfl

theorem parse_bool_other_tok (arg : String) (h1 : arg ≠ "1") (h2 : arg ≠ "true")
    (h3 : arg ≠ "yes") (h4 : arg ≠ "0") (h5 : arg ≠ "false") (h6 : arg ≠ "no") :
    parse_bool arg = (false, error ("Non-boolean value treated as false: " ++ arg)) := by
  have e1 : (arg == "1") = false := by simp [h1]
  have e2 : (arg == "true") = false := by simp [h2]
  have e3 : (arg == "yes") = false := by simp [h3]
  have e4 : (arg == "0") = false := by simp [h4]
  have e5 : (arg == "false") = false := by simp [h5]
  have e6 : (arg == "no") = false := by simp [h6]
  unfold parse_bool
  simp only [e1, e2, e3, e4, e5, e6, Bool.or_self, Bool.false_or]
  rfl

/-- C3 (amended): `parse_bool` accepts exactly the lower-case tokens 1,
true, yes (true) and 0, false, no (false) with success; every other
token, including other letter-case variants of these, stores false and
returns the non-boolean diagnostic. -/
theorem parse_bool_spec (arg : String) :
    ((arg = "1" ∨ arg = "true" ∨ arg = "yes") → parse_bool arg = (true, .success)) ∧
    ((arg = "0" ∨ arg = "false" ∨ arg = "no") → parse_bool arg = (false, .success)) ∧
    (arg ≠ "1" → arg ≠ "true" → arg ≠ "yes" → arg ≠ "0" → arg ≠ "false" → arg ≠ "no" →
      parse_bool arg = (false, error ("Non-boolean value treated as false: " ++ arg))) :=
  ⟨parse_bool_true_tok arg, parse_bool_false_tok arg, parse_bool_other_tok arg⟩

/-! ## Style-rule store lemmas -/

theorem find?_setRule_list (l : List ((Option String × RuleKey) × LineInfo))
    (k : Option String × RuleKey) (f : LineInfo → LineInfo) :
    (l.map (fun e => if e.1 = k then (e.1, f e.2) else e)).find?
        (fun e => decide (e.1 = k))
      = (l.find? (fun e => decide (e.1 = k))).map (fun e => (e.1, f e.2)) := by
  induction l with
  | nil => rfl
  | cons e l ih =>
    by_cases h : e.1 = k
    · rw [List.map_cons, if_pos h]
      rw [List.find?_cons_of_pos _ (by simp [h]), List.find?_cons_of_pos _ (by simp [h])]
      rfl
    · rw [List.map_cons, if_neg h]
      rw [List.find?_cons_of_neg _ (by simp [h]), List.find?_cons_of_neg _ (by simp [h])]
      exact ih

theorem lookupRule_setRule (st : State) (k : Option String × RuleKey)
    (f : LineInfo → LineInfo) :
    lookupRule (setRule st k f) k = (lookupRule st k).map f := by
  unfold lookupRule setRule
  rw [find?_setRule_list]
  cases st.rules.find? (fun e => decide (e.1 = k)) <;> rfl

theorem lookupRule_insertRuleIfAbsent (st : State) (k : Option String × RuleKey) :
    ∃ i, lookupRule (insertRuleIfAbsent st k) k = some i := by
  unfold insertRuleIfAbsent lookupRule
  by_cases h : st.rules.any (fun e => decide (e.1 = k))
  · rw [if_pos h]
    obtain ⟨e, he, hp⟩ := List.any_eq_true.mp h
    have : (st.rules.find? (fun e => decide (e.1 = k))).isSome := by
      rw [List.find?_isSome]
      exact ⟨e, he, hp⟩
    obtain ⟨e1, he1⟩ := Option.isSome_iff_exists.mp this
    exact ⟨e1.2, by rw [he1]; rfl⟩
  · rw [if_neg h]
    exact ⟨⟨0, 0, 0⟩, by rw [List.find?_cons_of_pos _ (by simp)]; rfl⟩

theorem add_line_rule_lookup (env : Env) (st : State) (pfx : Option String)
    (k : RuleKey) (st1 : State) (h : add_line_rule env st pfx k = some st1) :
    ∃ i, lookupRule st1 (pfx, k) = some i := by
  cases k with
  | named n =>
    simp only [add_line_rule] at h
    split at h
    · injection h with h1
      rw [← h1]
      exact lookupRule_insertRuleIfAbsent st _
    · exact absurd h (by simp)
  | lit s =>
    simp only [add_line_rule] at h
    injection h with h1
    rw [← h1]
    exact lookupRule_insertRuleIfAbsent st _

theorem orAttrs_cons (a : String) (l : List String) :
    orAttrs (a :: l) = ((map_enum_do attr_map a).getD 0) ||| orAttrs l := rfl

theorem orAttrs_append (l1 l2 : List String) :
    orAttrs (l1 ++ l2) = orAttrs l1 ||| orAttrs l2 := by
  induction l1 with
  | nil => simp [orAttrs]
  | cons a l ih =>
    rw [List.cons_append, orAttrs_cons, orAttrs_cons, ih, Nat.lor_assoc]

theorem orAttrs_reverse (l : List String) : orAttrs l.reverse = orAttrs l := by
  induction l with
  | nil => rfl
  | cons a l ih =>
    rw [List.reverse_cons, orAttrs_append, ih, orAttrs_cons]
    show orAttrs l ||| (((map_enum_do attr_map a).getD 0) ||| 0) = _
    rw [Nat.or_zero, Nat.lor_comm, orAttrs_cons]

theorem color_attr_loop_spec (k : Option String × RuleKey) (code : StatusCode)
    (l : List String) (h : ∀ a ∈ l, (map_enum_do attr_map a).isSome = true) :
    ∀ st : State, (color_attr_loop k code st l).2 = code ∧
      lookupRule (color_attr_loop k code st l).1 k =
        (lookupRule st k).map (fun i => { i with attr := i.attr ||| orAttrs l }) := by
  induction l with
  | nil =>
    intro st
    refine ⟨rfl, ?_⟩
    show lookupRule st k = _
    cases lookupRule st k <;> simp [orAttrs]
  | cons a l ih =>
    intro st
    have ha : (map_enum_do attr_map a).isSome = true := h a (List.mem_cons_self a l)
    obtain ⟨v, hv⟩ := Option.isSome_iff_exists.mp ha
    have hrest : ∀ b ∈ l, (map_enum_do attr_map b).isSome = true :=
      fun b hb => h b (List.mem_cons_of_mem a hb)
    have step : color_attr_loop k code st (a :: l) =
        color_attr_loop k code (setRule st k (fun i => { i with attr := i.attr ||| v })) l := by
      rw [color_attr_loop, hv]
    obtain ⟨h2, h3⟩ := ih hrest (setRule st k (fun i => { i with attr := i.attr ||| v }))
    refine ⟨by rw [step]; exact h2, ?_⟩
    rw [step, h3, lookupRule_setRule, Option.map_map, orAttrs_cons, hv]
    cases lookupRule st k with
    | none => rfl
    | some i =>
      show some _ = some _
      simp only [Option.getD_some, Function.comp]
      rw [Nat.lor_assoc]

theorem getD0 (a : String) (l : List String) : (a :: l).getD 0 "" = a := rfl

theorem getD1 (a b : String) (l : List String) : (a :: b :: l).getD 1 "" = b := rfl

theorem getD2 (a b c : String) (l : List String) : (a :: b :: c :: l).getD 2 "" = c := rfl

theorem drop3 (a b c : String) (l : List String) : (a :: b :: c :: l).drop 3 = l := rfl

/-- The remap path of the color command: when the selector is an unknown
symbolic name with an obsolete-table entry whose replacement resolves, the
command still writes the rule and returns the deprecation message. -/
theorem color_cmd_remap_eq (env : Env) (st : State) (sel fgT bgT : String)
    (attrs : List String) (pfx : Option String) (n oldN newN : String)
    (pfx2 : Option String) (key2 : RuleKey) (st1 : State) (fg bg : Int)
    (hsel : parse_color_name env sel = .ok (pfx, .named n))
    (hfail : add_line_rule env st pfx (.named n) = none)
    (hremap : find_remapped color_obsolete n = some (oldN, newN))
    (hparse2 : parse_color_name env newN = .ok (pfx2, key2))
    (hadd2 : add_line_rule env st (if pfx.isSome then pfx else pfx2) key2 = some st1)
    (hfg : set_color fgT = some fg) (hbg : set_color bgT = some bg)
    (hattrs : ∀ a ∈ attrs, (map_enum_do attr_map a).isSome = true) :
    option_color_command env st (sel :: fgT :: bgT :: attrs) =
      color_attr_loop ((if pfx.isSome then pfx else pfx2), key2)
        (error (oldN ++ " has been replaced by " ++ newN))
        (setRule (setRule (setRule st1 ((if pfx.isSome then pfx else pfx2), key2)
            (fun i => { i with fg := fg }))
          ((if pfx.isSome then pfx else pfx2), key2) (fun i => { i with bg := bg }))
          ((if pfx.isSome then pfx else pfx2), key2) (fun i => { i with attr := 0 }))
        attrs.reverse ∧
    (option_color_command env st (sel :: fgT :: bgT :: attrs)).2 =
      error (oldN ++ " has been replaced by " ++ newN) ∧
    lookupRule (option_color_command env st (sel :: fgT :: bgT :: attrs)).1
        ((if pfx.isSome then pfx else pfx2), key2) =
      some ⟨fg, bg, orAttrs attrs⟩ := by
  have hlen : ¬ (sel :: fgT :: bgT :: attrs).length < 3 := by
    simp [List.length_cons]
  have hres : color_resolve_rule env st pfx (.named n) sel =
      .ok (st1, ((if pfx.isSome then pfx else pfx2), key2),
        error (oldN ++ " has been replaced by " ++ newN)) := by
    unfold color_resolve_rule
    rw [hfail]
    simp only [hremap, hparse2, hadd2]
  have hcmd : option_color_command env st (sel :: fgT :: bgT :: attrs) =
      color_attr_loop ((if pfx.isSome then pfx else pfx2), key2)
        (error (oldN ++ " has been replaced by " ++ newN))
        (setRule (setRule (setRule st1 ((if pfx.isSome then pfx else pfx2), key2)
            (fun i => { i with fg := fg }))
          ((if pfx.isSome then pfx else pfx2), key2) (fun i => { i with bg := bg }))
          ((if pfx.isSome then pfx else pfx2), key2) (fun i => { i with attr := 0 }))
        attrs.reverse := by
    unfold option_color_command
    rw [if_neg hlen, getD0, getD1, getD2, drop3]
    simp only [hsel, hres, hfg, hbg]
  obtain ⟨i0, hi0⟩ := add_line_rule_lookup env st _ key2 st1 hadd2
  have hrev : ∀ a ∈ attrs.reverse, (map_enum_do attr_map a).isSome = true := by
    intro a ha
    exact hattrs a (List.mem_reverse.mp ha)
  obtain ⟨hc1, hc2⟩ := color_attr_loop_spec ((if pfx.isSome then pfx else pfx2), key2)
    (error (oldN ++ " has been replaced by " ++ newN)) attrs.reverse hrev
    (setRule (setRule (setRule st1 ((if pfx.isSome then pfx else pfx2), key2)
        (fun i => { i with fg := fg }))
      ((if pfx.isSome then pfx else pfx2), key2) (fun i => { i with bg := bg }))
      ((if pfx.isSome then pfx else pfx2), key2) (fun i => { i with attr := 0 }))
  refine ⟨hcmd, by rw [hcmd]; exact hc1, ?_⟩
  rw [hcmd, hc2, lookupRule_setRule, lookupRule_setRule, lookupRule_setRule, hi0]
  rw [orAttrs_reverse]
  simp

/-! ## C8 -/

/-- C8: a successful `color` command resets the rule's attribute mask and
stores the bitwise OR of the values of all listed attribute names; the
resulting rule carries exactly the requested foreground, background and
ORed mask (independent of any earlier mask). -/
theorem color_attr_mask_or (env : Env) (st : State) (sel fgT bgT : String)
    (attrs : List String) (pfx : Option String) (key : RuleKey) (st1 : State)
    (fg bg : Int)
    (hsel : parse_color_name env sel = .ok (pfx, key))
    (hadd : add_line_rule env st pfx key = some st1)
    (hfg : set_color fgT = some fg) (hbg : set_color bgT = some bg)
    (hattrs : ∀ a ∈ attrs, (map_enum_do attr_map a).isSome = true) :
    (option_color_command env st (sel :: fgT :: bgT :: attrs)).2 = .success ∧
    lookupRule (option_color_command env st (sel :: fgT :: bgT :: attrs)).1 (pfx, key) =
      some { fg := fg, bg := bg, attr := orAttrs attrs } := by
  have hlen : ¬ (sel :: fgT :: bgT :: attrs).length < 3 := by
    simp [List.length_cons]
  have hres : color_resolve_rule env st pfx key sel = .ok (st1, (pfx, key), .success) := by
    unfold color_resolve_rule
    rw [hadd]
  have hcmd : option_color_command env st (sel :: fgT :: bgT :: attrs) =
      color_attr_loop (pfx, key) .success
        (setRule (setRule (setRule st1 (pfx, key) (fun i => { i with fg := fg }))
          (pfx, key) (fun i => { i with bg := bg })) (pfx, key)
          (fun i => { i with attr := 0 }))
        attrs.reverse := by
    unfold option_color_command
    rw [if_neg hlen, getD0, getD1, getD2, drop3]
    simp only [hsel, hres, hfg, hbg]
  obtain ⟨i0, hi0⟩ := add_line_rule_lookup env st pfx key st1 hadd
  have hrev : ∀ a ∈ attrs.reverse, (map_enum_do attr_map a).isSome = true := by
    intro a ha
    exact hattrs a (List.mem_reverse.mp ha)
  obtain ⟨hc1, hc2⟩ := color_attr_loop_spec (pfx, key) .success attrs.reverse hrev
    (setRule (setRule (setRule st1 (pfx, key) (fun i => { i with fg := fg }))
      (pfx, key) (fun i => { i with bg := bg })) (pfx, key) (fun i => { i with attr := 0 }))
  rw [hcmd]
  refine ⟨hc1, ?_⟩
  rw [hc2, lookupRule_setRule, lookupRule_setRule, lookupRule_setRule, hi0]
  rw [orAttrs_reverse]
  simp

/-- C8 witness: `color default red blue BOLD underline` over the concrete
environment yields mask 8192 OR 512 = 8704. -/
theorem color_attr_mask_or_witness :
    (option_color_command env0 st0 ["default", "red", "blue", "BOLD", "underline"]).2 =
      .success ∧
    lookupRule (option_color_command env0 st0
        ["default", "red", "blue", "BOLD", "underline"]).1
        (none, .named "default") =
      some { fg := 1, bg := 4, attr := 8704 } :=
  color_attr_mask_or env0 st0 "default" "red" "blue" ["BOLD", "underline"]
    none (.named "default") (insertRuleIfAbsent st0 (none, .named "default"))
    1 4 rfl rfl rfl rfl (by decide)

/-! ## C5 -/

/-- C5: with `acked` no longer a known rule name, `color acked fg bg`
resolves through the obsolete table to the same style rule (same literal
selector, same foreground and background) as
`color '    Acked-by' fg bg` — the final states are equal — and the
returned message names both the old and the new selector. -/
theorem color_acked_remap (env : Env) (st : State) (fgT bgT : String) (fg bg : Int)
    (hA : add_line_rule env st none (.named "acked") = none)
    (hfg : set_color fgT = some fg) (hbg : set_color bgT = some bg) :
    (option_color_command env st ["acked", fgT, bgT]).1 =
      (option_color_command env st ["\x27    Acked-by\x27", fgT, bgT]).1 ∧
    (option_color_command env st ["\x27    Acked-by\x27", fgT, bgT]).2 = .success ∧
    (option_color_command env st ["acked", fgT, bgT]).2 =
      error "acked has been replaced by \x27    Acked-by\x27" ∧
    lookupRule (option_color_command env st ["acked", fgT, bgT]).1
        (none, .lit "    Acked-by") =
      some ⟨fg, bg, 0⟩ := by
  obtain ⟨hcmd1, hcode1, hlook1⟩ :=
    color_cmd_remap_eq env st "acked" fgT bgT [] none "acked" "acked"
      "\x27    Acked-by\x27" none (.lit "    Acked-by")
      (insertRuleIfAbsent st (none, .lit "    Acked-by")) fg bg
      rfl hA rfl rfl rfl hfg hbg (by simp)
  have hcmd2 : option_color_command env st ["\x27    Acked-by\x27", fgT, bgT] =
      (setRule (setRule (setRule (insertRuleIfAbsent st (none, .lit "    Acked-by"))
          (none, .lit "    Acked-by") (fun i => { i with fg := fg }))
        (none, .lit "    Acked-by") (fun i => { i with bg := bg }))
        (none, .lit "    Acked-by") (fun i => { i with attr := 0 }), .success) := by
    unfold option_color_command
    rw [if_neg (by simp), getD0, getD1, getD2, drop3]
    have hres : color_resolve_rule env st none (.lit "    Acked-by")
        "\x27    Acked-by\x27" =
        .ok (insertRuleIfAbsent st (none, .lit "    Acked-by"),
          (none, .lit "    Acked-by"), .success) := rfl
    simp only [show parse_color_name env "\x27    Acked-by\x27" =
        .ok (none, RuleKey.lit "    Acked-by") from rfl, hres, hfg, hbg]
    rfl
  have h1 : (option_color_command env st ["acked", fgT, bgT]).1 =
      (option_color_command env st ["\x27    Acked-by\x27", fgT, bgT]).1 := by
    rw [hcmd1, hcmd2]
    rfl
  exact ⟨h1, by rw [hcmd2], hcode1, hlook1⟩

/-- C5 witness: `color acked red blue` and `color '    Acked-by' red blue`
over the concrete environment (where `acked` is not a rule name). -/
theorem color_acked_remap_witness :
    (option_color_command env0 st0 ["acked", "red", "blue"]).1 =
      (option_color_command env0 st0 ["\x27    Acked-by\x27", "red", "blue"]).1 ∧
    (option_color_command env0 st0 ["\x27    Acked-by\x27", "red", "blue"]).2 = .success ∧
    (option_color_command env0 st0 ["acked", "red", "blue"]).2 =
      error "acked has been replaced by \x27    Acked-by\x27" ∧
    lookupRule (option_color_command env0 st0 ["acked", "red", "blue"]).1
        (none, .lit "    Acked-by") =
      some ⟨1, 4, 0⟩ :=
  color_acked_remap env0 st0 "red" "blue" 1 4 rfl rfl rfl

/-- The renamed-action path of the bind command: the binding for the new
action is installed, then the rename message is returned as the status. -/
theorem bind_rename_run (env : Env) (st : State) (sc kT a2 : String) (k : Nat)
    (km oldN action : String)
    (hkm : env.km sc = some km) (hkT : ¬ kT = "")
    (hkey : env.get_key_value kT = some (k, ""))
    (hreq : env.get_request a2 = REQ_UNKNOWN)
    (hobs : find_remapped bind_obsolete a2 = some (oldN, action)) :
    option_bind_command env st [sc, kT, a2] =
      ({ st with bindings := (km, env.get_request action, [k]) :: st.bindings },
       error (oldN ++ " has been renamed to " ++ action)) := by
  unfold option_bind_command
  rw [if_neg (by simp), getD0, getD1, getD2]
  simp only [hkm, if_neg hkT, hkey, hreq, hobs, ne_eq, not_true_eq_false,
    Bool.false_eq_true, if_false, ↓reduceIte]
  rfl

/-- The toggle-rewrite path of the bind command: the synthetic `:toggle`
run command is installed, then the replacement message is returned. -/
theorem bind_toggle_run (env : Env) (st : State) (sc kT a2 : String) (k : Nat)
    (km action newN : String)
    (hkm : env.km sc = some km) (hkT : ¬ kT = "")
    (hkey : env.get_key_value kT = some (k, ""))
    (hreq : env.get_request a2 = REQ_UNKNOWN)
    (hobs : find_remapped bind_obsolete a2 = none)
    (htog : find_remapped bind_toggles a2 = some (action, newN)) :
    option_bind_command env st [sc, kT, a2] =
      ({ st with runRequests :=
          (km, [k], [":toggle", newN] ++ (toggle_arg action).toList) :: st.runRequests },
       error (action ++ " has been replaced by \x60:toggle " ++ newN ++
              (match toggle_arg action with | some a => " " ++ a | none => "") ++ "\x27")) := by
  unfold option_bind_command
  rw [if_neg (by simp), getD0, getD1, getD2]
  simp only [hkm, if_neg hkT, hkey, hreq, hobs, htog, ne_eq, not_true_eq_false,
    Bool.false_eq_true, if_false, ↓reduceIte]
  rfl

/-! ## C2 -/

/-- C2 counterexample: the deprecation notice for `color acked red blue`
applies the setting (the remapped rule gets the requested colors) yet the
returned status is the ordinary error status carrying the message, not a
success status as the claim states. -/
theorem color_deprecation_error_status :
    (option_color_command env0 st0 ["acked", "red", "blue"]).2 =
      error "acked has been replaced by \x27    Acked-by\x27" ∧
    (option_color_command env0 st0 ["acked", "red", "blue"]).2 ≠ .success ∧
    lookupRule (option_color_command env0 st0 ["acked", "red", "blue"]).1
        (none, .lit "    Acked-by") = some ⟨1, 4, 0⟩ := by
  have h2 : (option_color_command env0 st0 ["acked", "red", "blue"]).2 =
      error "acked has been replaced by \x27    Acked-by\x27" := rfl
  refine ⟨h2, ?_, rfl⟩
  rw [h2]
  simp [error]

/-- C2 (amended): every deprecation notice — an obsolete color-selector
remap, a renamed bind action, or a toggle structural rewrite — still
applies the requested setting, but the command returns the ordinary
(non-success) error status carrying the advisory message, the same status
kind as a failure, rather than a success status. -/
theorem deprecations_apply_with_error_status :
    (∀ (env : Env) (st : State) (sel fgT bgT : String) (attrs : List String)
        (pfx : Option String) (n oldN newN : String) (pfx2 : Option String)
        (key2 : RuleKey) (st1 : State) (fg bg : Int),
      parse_color_name env sel = .ok (pfx, .named n) →
      add_line_rule env st pfx (.named n) = none →
      find_remapped color_obsolete n = some (oldN, newN) →
      parse_color_name env newN = .ok (pfx2, key2) →
      add_line_rule env st (if pfx.isSome then pfx else pfx2) key2 = some st1 →
      set_color fgT = some fg → set_color bgT = some bg →
      (∀ a ∈ attrs, (map_enum_do attr_map a).isSome = true) →
      (option_color_command env st (sel :: fgT :: bgT :: attrs)).2 =
          error (oldN ++ " has been replaced by " ++ newN) ∧
        (option_color_command env st (sel :: fgT :: bgT :: attrs)).2 ≠ .success ∧
        lookupRule (option_color_command env st (sel :: fgT :: bgT :: attrs)).1
          ((if pfx.isSome then pfx else pfx2), key2) = some ⟨fg, bg, orAttrs attrs⟩) ∧
    (∀ (env : Env) (st : State) (sc kT a2 : String) (k : Nat) (km oldN action : String),
      env.km sc = some km → ¬ kT = "" →
      env.get_key_value kT = some (k, "") →
      env.get_request a2 = REQ_UNKNOWN →
      find_remapped bind_obsolete a2 = some (oldN, action) →
      option_bind_command env st [sc, kT, a2] =
          ({ st with bindings := (km, env.get_request action, [k]) :: st.bindings },
           error (oldN ++ " has been renamed to " ++ action)) ∧
        (option_bind_command env st [sc, kT, a2]).2 ≠ .success) ∧
    (∀ (env : Env) (st : State) (sc kT a2 : String) (k : Nat) (km action newN : String),
      env.km sc = some km → ¬ kT = "" →
      env.get_key_value kT = some (k, "") →
      env.get_request a2 = REQ_UNKNOWN →
      find_remapped bind_obsolete a2 = none →
      find_remapped bind_toggles a2 = some (action, newN) →
      option_bind_command env st [sc, kT, a2] =
          ({ st with runRequests :=
              (km, [k], [":toggle", newN] ++ (toggle_arg action).toList) :: st.runRequests },
           error (action ++ " has been replaced by \x60:toggle " ++ newN ++
                  (match toggle_arg action with | some a => " " ++ a | none => "") ++ "\x27")) ∧
        (option_bind_command env st [sc, kT, a2]).2 ≠ .success) := by
  refine ⟨?_, ?_, ?_⟩
  · intro env st sel fgT bgT attrs pfx n oldN newN pfx2 key2 st1 fg bg
    intro hsel hfail hremap hparse2 hadd2 hfg hbg hattrs
    obtain ⟨_, hcode, hlook⟩ :=
      color_cmd_remap_eq env st sel fgT bgT attrs pfx n oldN newN pfx2 key2 st1 fg bg
        hsel hfail hremap hparse2 hadd2 hfg hbg hattrs
    refine ⟨hcode, ?_, hlook⟩
    rw [hcode]
    simp [error]
  · intro env st sc kT a2 k km oldN action hkm hkT hkey hreq hobs
    have h := bind_rename_run env st sc kT a2 k km oldN action hkm hkT hkey hreq hobs
    refine ⟨h, ?_⟩
    rw [h]
    simp [error]
  · intro env st sc kT a2 k km action newN hkm hkT hkey hreq hobs htog
    have h := bind_toggle_run env st sc kT a2 k km action newN hkm hkT hkey hreq hobs htog
    refine ⟨h, ?_⟩
    rw [h]
    simp [error]

/-! ## C4 -/

/-- C4: once an option's seen flag is true, a `set` command for that
option is a no-op — the registry state is unchanged and the command
returns success — regardless of the value tokens. -/
theorem set_seen_idempotent (env : Env) (st : State) (name : String)
    (vals : List String) (o : OptionInfo)
    (href : name ≠ "reference-format")
    (hfind : find_option_info st.options name = some o)
    (hseen : o.seen = true) (hv : vals ≠ []) :
    option_set_command env st (name :: "=" :: vals) = (st, .success) := by
  have hlen : ¬ (name :: "=" :: vals).length < 3 := by
    cases vals with
    | nil => exact absurd rfl hv
    | cons a l => simp [List.length_cons]
  unfold option_set_command
  rw [if_neg hlen, getD0, getD1]
  simp only [ne_eq, not_true_eq_false, Bool.false_eq_true, if_false, if_neg href,
    hfind, hseen, if_true, ↓reduceIte]

/-- C4 witness: a second assignment to a seen `tab-size` is a success
no-op over the concrete environment. -/
theorem set_seen_idempotent_witness :
    option_set_command env0 ⟨[⟨"tab-size", "int", .vInt 8, true⟩], [], [], []⟩
      ["tab-size", "=", "99"] =
      (⟨[⟨"tab-size", "int", .vInt 8, true⟩], [], [], []⟩, .success) :=
  set_seen_idempotent env0 ⟨[⟨"tab-size", "int", .vInt 8, true⟩], [], [], []⟩
    "tab-size" ["99"] ⟨"tab-size", "int", .vInt 8, true⟩ (by decide) rfl rfl (by simp)

/-! ## C10 -/

/-- C10: for a scalar option not yet seen, a `set` command with a value
that coerces successfully but with extra trailing tokens returns the
only-takes-one-value error, yet the option's stored value has already
been updated to the parsed value — the erroring command does not leave
the registry unchanged. -/
theorem set_extra_tokens_partial_update (env : Env) (st : State) (name v : String)
    (extra : List String) (o : OptionInfo)
    (href : name ≠ "reference-format")
    (hfind : find_option_info st.options name = some o)
    (hseen : o.seen = false)
    (htype : o.type ≠ "const char **")
    (hparse : (parse_option env o "" v).2 = .success)
    (hextra : extra ≠ []) :
    option_set_command env st (name :: "=" :: v :: extra) =
      (setOptValue st name (parse_option env o "" v).1,
       error ("Option " ++ name ++ " only takes one value")) := by
  have hlen : ¬ (name :: "=" :: v :: extra).length < 3 := by
    simp [List.length_cons]
  have hlen3 : (name :: "=" :: v :: extra).length ≠ 3 := by
    cases extra with
    | nil => exact absurd rfl hextra
    | cons a l => simp [List.length_cons]
  unfold option_set_command
  rw [if_neg hlen, getD0, getD1, getD2]
  simp only [ne_eq, not_true_eq_false, Bool.false_eq_true, if_false, if_neg href,
    hfind, hseen, if_neg htype, if_pos (And.intro hparse hlen3), ↓reduceIte]

/-- C10 witness: `set tab-size = 4 8` stores 4 (the registry value
changes from 8 to 4) and still reports the extra-token error. -/
theorem set_extra_tokens_partial_update_witness :
    option_set_command env0 ⟨[⟨"tab-size", "int", .vInt 8, false⟩], [], [], []⟩
      ["tab-size", "=", "4", "8"] =
      (⟨[⟨"tab-size", "int", .vInt 4, false⟩], [], [], []⟩,
       error "Option tab-size only takes one value") :=
  set_extra_tokens_partial_update env0 ⟨[⟨"tab-size", "int", .vInt 8, false⟩], [], [], []⟩
    "tab-size" "4" ["8"] ⟨"tab-size", "int", .vInt 8, false⟩
    (by decide) rfl rfl (by decide) rfl (by simp)

/-! ## C9 -/

/-- C9: in a `bind` command whose scope token does not resolve, the
fallback to the `refs` key map happens exactly when the token is
literally `branch` (the command then behaves as if the scope were
`refs`); every other unresolvable scope token fails with the
unknown-key-map error. -/
theorem bind_branch_fallback (env : Env) (st : State) (rest : List String)
    (hlen : 2 ≤ rest.length) :
    (env.km "branch" = none → env.km "refs" = some "refs" →
      option_bind_command env st ("branch" :: rest) =
        option_bind_command env st ("refs" :: rest)) ∧
    (∀ a0 : String, env.km a0 = none → a0 ≠ "branch" →
      option_bind_command env st (a0 :: rest) =
        (st, error ("Unknown key map: " ++ a0))) := by
  have e1 : ∀ a : String, (a :: rest).getD 1 "" = rest.getD 0 "" := fun a => rfl
  have e2 : ∀ a : String, (a :: rest).getD 2 "" = rest.getD 1 "" := fun a => rfl
  have e3 : ∀ a : String, (a :: rest).drop 2 = rest.drop 1 := fun a => rfl
  have elen : ∀ a : String, ¬ (a :: rest).length < 3 := by
    intro a
    simp only [List.length_cons]
    omega
  constructor
  · intro hb hr
    unfold option_bind_command
    rw [if_neg (elen "branch"), if_neg (elen "refs")]
    simp only [getD0, e1, e2, e3, hb, hr, ↓reduceIte]
  · intro a0 h0 hne
    unfold option_bind_command
    rw [if_neg (elen a0)]
    simp only [getD0, h0, hne, ↓reduceIte, if_false]

/-- C9 witness: over the concrete environment (no `branch` key map,
`refs` present), `bind branch g view-grep` equals `bind refs g view-grep`
and an unknown scope such as `nosuch` is a hard error. -/
theorem bind_branch_fallback_witness :
    ((env0.km "branch" = none → env0.km "refs" = some "refs" →
      option_bind_command env0 st0 ("branch" :: ["g", "view-grep"]) =
        option_bind_command env0 st0 ("refs" :: ["g", "view-grep"])) ∧
    (∀ a0 : String, env0.km a0 = none → a0 ≠ "branch" →
      option_bind_command env0 st0 (a0 :: ["g", "view-grep"]) =
        (st0, error ("Unknown key map: " ++ a0)))) ∧
    option_bind_command env0 st0 ["branch", "g", "view-grep"] =
      (⟨[], [], [("refs", 3, [103])], []⟩, .success) :=
  ⟨bind_branch_fallback env0 st0 ["g", "view-grep"] (by simp), rfl⟩

/-! ## C6 -/

theorem parse_int_50 (cur : Int) : parse_int cur "50" 0 1024 = (50, .success) := by
  unfold parse_int
  rw [show atoi "50" = 50 from rfl, if_pos (by norm_num)]

/-- C6: for an integer option whose name contains "title-overflow", a
boolean false token stores 0, a boolean true token stores the fixed
default 50, and any other token is parsed as a plain bounded integer with
the default bounds [0,1024]; line-number-interval and tab-size use
bounds [1,1024], id-width is bounded above by the identifier length
limit (SIZEOF_REV - 1 = 40), and every other integer option uses
[0,1024]. -/
theorem parse_option_int_spec (env : Env) (o : OptionInfo) (arg : String)
    (htype : o.type = "int") (hnotes : o.name ≠ "show-notes") :
    (strstrContains o.name "title-overflow" = true →
      ((arg = "0" ∨ arg = "false" ∨ arg = "no") →
        parse_option env o "" arg = (.vInt 0, .success)) ∧
      ((arg = "1" ∨ arg = "true" ∨ arg = "yes") →
        parse_option env o "" arg = (.vInt 50, .success)) ∧
      ((parse_bool arg).2 ≠ .success →
        parse_option env o "" arg =
          (.vInt (parse_int (optCurInt o.value) arg 0 1024).1,
           (parse_int (optCurInt o.value) arg 0 1024).2))) ∧
    (strstrContains o.name "title-overflow" = false →
      parse_option env o "" arg =
        (.vInt (parse_int (optCurInt o.value) arg (int_option_bounds o.name).1
            (int_option_bounds o.name).2).1,
         (parse_int (optCurInt o.value) arg (int_option_bounds o.name).1
            (int_option_bounds o.name).2).2)) ∧
    int_option_bounds "line-number-interval" = (1, 1024) ∧
    int_option_bounds "tab-size" = (1, 1024) ∧
    int_option_bounds "id-width" = (0, 40) ∧
    (o.name ≠ "line-number-interval" → o.name ≠ "tab-size" → o.name ≠ "id-width" →
      int_option_bounds o.name = (0, 1024)) := by
  have hbase : parse_option env o "" arg =
      (if strstrContains o.name "title-overflow" = true then
        (if (parse_bool arg).2 = .success then
          (if (parse_bool arg).1 = false then ((.vInt 0 : OptValue), StatusCode.success)
           else (.vInt (parse_int (optCurInt o.value) "50" (int_option_bounds o.name).1
                    (int_option_bounds o.name).2).1,
                 (parse_int (optCurInt o.value) "50" (int_option_bounds o.name).1
                    (int_option_bounds o.name).2).2))
         else (.vInt (parse_int (optCurInt o.value) arg (int_option_bounds o.name).1
                  (int_option_bounds o.name).2).1,
               (parse_int (optCurInt o.value) arg (int_option_bounds o.name).1
                  (int_option_bounds o.name).2).2))
      else (.vInt (parse_int (optCurInt o.value) arg (int_option_bounds o.name).1
              (int_option_bounds o.name).2).1,
            (parse_int (optCurInt o.value) arg (int_option_bounds o.name).1
              (int_option_bounds o.name).2).2)) := by
    simp only [parse_option, enum_name_pfx, htype, hnotes,
      show strHasPfx "enum" "int" = false from rfl, ↓reduceIte,
      Bool.false_eq_true, if_false]
    rw [if_neg (show ¬ ("int" : String) = "bool" by decide),
      if_neg (show ¬ ("int" : String) = "double" by decide)]
  refine ⟨?_, ?_, rfl, rfl, rfl, ?_⟩
  · intro htitle
    have hn1 : o.name ≠ "line-number-interval" := by
      intro h
      rw [h] at htitle
      exact absurd htitle (by decide)
    have hn2 : o.name ≠ "tab-size" := by
      intro h
      rw [h] at htitle
      exact absurd htitle (by decide)
    have hn3 : o.name ≠ "id-width" := by
      intro h
      rw [h] at htitle
      exact absurd htitle (by decide)
    have hb : int_option_bounds o.name = (0, 1024) := by
      simp [int_option_bounds, hn1, hn2, hn3]
    refine ⟨?_, ?_, ?_⟩
    · intro h
      rw [hbase, if_pos htitle, parse_bool_false_tok arg h]
      rfl
    · intro h
      rw [hbase, if_pos htitle, parse_bool_true_tok arg h]
      simp [hb, parse_int_50]
    · intro hpb
      rw [hbase, if_pos htitle, if_neg hpb, hb]
  · intro htf
    rw [hbase, if_neg (by simp [htf])]
  · intro h1 h2 h3
    simp [int_option_bounds, h1, h2, h3]

/-- C6 witness: option `commit-title-overflow` of type int, current value
7, assigned the boolean token `true`, stores the fixed default 50. -/
theorem parse_option_int_spec_witness :
    parse_option env0 ⟨"commit-title-overflow", "int", .vInt 7, false⟩ "" "true" =
      (.vInt 50, .success) :=
  ((parse_option_int_spec env0 ⟨"commit-title-overflow", "int", .vInt 7, false⟩ "true"
      rfl (by decide)).1 (by decide)).2.1 (Or.inr (Or.inl rfl))

/-! ## C7 -/

/-- C7: `parse_enum` always returns success; a token matching a map entry
(case-insensitive, exact length) stores that entry's value, and any other
token is coerced as a boolean, storing entry 1's value when boolean-true
and entry 0's value when boolean-false or any other word. -/
theorem parse_enum_spec (entries : List (String × Int)) (arg : String)
    (h : 2 ≤ entries.length) :
    (parse_enum entries arg).2 = .success ∧
    (∀ v : Int, map_enum_do entries arg = some v → (parse_enum entries arg).1 = v) ∧
    (map_enum_do entries arg = none →
      (parse_enum entries arg).1 =
        (entries.getD (if (parse_bool arg).1 then 1 else 0) ("", 0)).2) := by
  refine ⟨?_, ?_, ?_⟩
  · unfold parse_enum
    cases map_enum_do entries arg with
    | none => rfl
    | some v => rfl
  · intro v hv
    unfold parse_enum
    rw [hv]
  · intro hv
    unfold parse_enum
    rw [hv]

/-- C7 witness: a two-entry map driven by an upper-case member token. -/
theorem parse_enum_spec_witness :
    (parse_enum [("name", 10), ("date", 11)] "DATE").2 = .success ∧
    (∀ v : Int, map_enum_do ([("name", 10), ("date", 11)] : List (String × Int)) "DATE" =
        some v →
      (parse_enum [("name", 10), ("date", 11)] "DATE").1 = v) ∧
    (map_enum_do ([("name", 10), ("date", 11)] : List (String × Int)) "DATE" = none →
      (parse_enum [("name", 10), ("date", 11)] "DATE").1 =
        ([("name", 10), ("date", 11)].getD
          (if (parse_bool "DATE").1 then 1 else 0) ("", 0)).2) :=
  parse_enum_spec [("name", 10), ("date", 11)] "DATE" (by simp)

end Tig
